import Mathlib

/-!
Verification of the record-hashing / blockchain-anchoring subsystem of the
Decentralized-Healthcare repository.

The development shallowly embeds:
  * `server/hms/blockchain_service.py` (serialization, hashing, audit rows),
  * `server/blockchain/web3_client.py` (the chain client),
  * the `verify` action of `AuditsViewSet` in `server/hms/views.py`.

Python byte strings are `List Nat` (each element a byte value), machine words
are `Nat` reduced modulo `2 ^ 32` where the source's arithmetic wraps, and
fallible operations return `Except Unit`.  Effectful library primitives
(JSON-RPC calls, the signing backend, the receipt poll) are fields of an
explicit environment record, so that every control path of the source is a
total function of that environment.
-/

namespace DHC

/-! ### Bytes, hex and UTF-8 helpers (Python `hashlib` / `json` plumbing) -/

/-- The sixteen lowercase hexadecimal digits, as used by `hexdigest()`. -/
def hexDigits : List Char := "0123456789abcdef".data

/-- Lowercase hex digit of `n % 16`. -/
def hexDigit (n : Nat) : Char := hexDigits.getD (n % 16) '0'

/-- Two lowercase hex digits of a byte, high nibble first (`"%02x"`). -/
def byteHexChars (b : Nat) : List Char := [hexDigit (b / 16), hexDigit b]

/-- Lowercase hex rendering of a byte list, as `bytes.hex()` / `hexdigest()`. -/
def bytesToHex (bs : List Nat) : String := String.mk (bs.flatMap byteHexChars)

/-- UTF-8 encoding of one character (code point to byte list). -/
def utf8Char (c : Char) : List Nat :=
  let n := c.toNat
  if n < 0x80 then [n]
  else if n < 0x800 then [0xc0 + n / 0x40, 0x80 + n % 0x40]
  else if n < 0x10000 then
    [0xe0 + n / 0x1000, 0x80 + n / 0x40 % 0x40, 0x80 + n % 0x40]
  else
    [0xf0 + n / 0x40000, 0x80 + n / 0x1000 % 0x40, 0x80 + n / 0x40 % 0x40,
     0x80 + n % 0x40]

/-- UTF-8 encoding of a string (Python `str.encode('utf-8')`). -/
def utf8Encode (s : String) : List Nat := s.data.flatMap utf8Char

/-! ### SHA-256 (`hashlib.sha256`), on `Nat` with explicit mod `2 ^ 32` -/

/-- Truncate to a 32-bit word. -/
def w32 (n : Nat) : Nat := n % 4294967296

/-- 32-bit right rotation. -/
def rotr (x n : Nat) : Nat := w32 ((x >>> n) ||| (x <<< (32 - n)))

/-- SHA-256 round constants. -/
def shaK : List Nat :=
  [1116352408, 1899447441, 3049323471, 3921009573, 961987163, 1508970993,
   2453635748, 2870763221, 3624381080, 310598401, 607225278, 1426881987,
   1925078388, 2162078206, 2614888103, 3248222580, 3835390401, 4022224774,
   264347078, 604807628, 770255983, 1249150122, 1555081692, 1996064986,
   2554220882, 2821834349, 2952996808, 3210313671, 3336571891, 3584528711,
   113926993, 338241895, 666307205, 773529912, 1294757372, 1396182291,
   1695183700, 1986661051, 2177026350, 2456956037, 2730485921, 2820302411,
   3259730800, 3345764771, 3516065817, 3600352804, 4094571909, 275423344,
   430227734, 506948616, 659060556, 883997877, 958139571, 1322822218,
   1537002063, 1747873779, 1955562222, 2024104815, 2227730452, 2361852424,
   2428436474, 2756734187, 3204031479, 3329325298]

/-- The eight-word SHA-256 state. -/
structure Sha256State where
  a : Nat
  b : Nat
  c : Nat
  d : Nat
  e : Nat
  f : Nat
  g : Nat
  h : Nat

/-- Initial SHA-256 state. -/
def shaInit : Sha256State :=
  ⟨1779033703, 3144134277, 1013904242, 2773480762,
   1359893119, 2600822924, 528734635, 1541459225⟩

/-- Big-endian 32-bit word from four bytes. -/
def word32OfBytes (b0 b1 b2 b3 : Nat) : Nat :=
  w32 (b0 * 0x1000000 + b1 * 0x10000 + b2 * 0x100 + b3)

/-- The first sixteen schedule words of a 64-byte block. -/
def blockWords : List Nat → List Nat
  | b0 :: b1 :: b2 :: b3 :: rest => word32OfBytes b0 b1 b2 b3 :: blockWords rest
  | _ => []

/-- Extend a reversed schedule prefix by one word (small sigma functions). -/
def schedNext (wrev : List Nat) : Nat :=
  let at' := fun k => wrev.getD k 0
  let w2 := at' 1
  let w7 := at' 6
  let w15 := at' 14
  let w16 := at' 15
  let s0 := (rotr w15 7) ^^^ (rotr w15 18) ^^^ (w15 >>> 3)
  let s1 := (rotr w2 17) ^^^ (rotr w2 19) ^^^ (w2 >>> 10)
  w32 (w16 + s0 + w7 + s1)

/-- Extend the (reversed) message schedule by `n` further words. -/
def schedExtend : Nat → List Nat → List Nat
  | 0, wrev => wrev
  | n + 1, wrev => schedExtend n (schedNext wrev :: wrev)

/-- The full 64-word message schedule of one block. -/
def messageSchedule (block : List Nat) : List Nat :=
  (schedExtend 48 (blockWords block).reverse).reverse

/-- One SHA-256 compression round. -/
def shaRound (st : Sha256State) (kw : Nat × Nat) : Sha256State :=
  let s1 := (rotr st.e 6) ^^^ (rotr st.e 11) ^^^ (rotr st.e 25)
  let ch := (st.e &&& st.f) ^^^ ((st.e ^^^ 0xffffffff) &&& st.g)
  let t1 := w32 (st.h + s1 + ch + kw.1 + kw.2)
  let s0 := (rotr st.a 2) ^^^ (rotr st.a 13) ^^^ (rotr st.a 22)
  let mj := (st.a &&& st.b) ^^^ (st.a &&& st.c) ^^^ (st.b &&& st.c)
  let t2 := w32 (s0 + mj)
  ⟨w32 (t1 + t2), st.a, st.b, st.c, w32 (st.d + t1), st.e, st.f, st.g⟩

/-- Compress one 64-byte block into the state. -/
def shaCompress (st : Sha256State) (block : List Nat) : Sha256State :=
  let fin := (shaK.zip (messageSchedule block)).foldl shaRound st
  ⟨w32 (st.a + fin.a), w32 (st.b + fin.b), w32 (st.c + fin.c), w32 (st.d + fin.d),
   w32 (st.e + fin.e), w32 (st.f + fin.f), w32 (st.g + fin.g), w32 (st.h + fin.h)⟩

/-- Split a byte list into 64-byte blocks, with structural-recursion fuel
(one unit per leading element suffices, since each step consumes at least
one element). -/
def toBlocksFuel : Nat → List Nat → List (List Nat)
  | 0, _ => []
  | _ + 1, [] => []
  | fuel + 1, b :: bs => (b :: bs).take 64 :: toBlocksFuel fuel ((b :: bs).drop 64)

/-- Split a byte list into 64-byte blocks (the padded length is a multiple). -/
def toBlocks (bs : List Nat) : List (List Nat) := toBlocksFuel bs.length bs

/-- SHA-256 padding: `0x80`, zeros to 56 mod 64, 64-bit big-endian bit length. -/
def shaPad (msg : List Nat) : List Nat :=
  let len := msg.length
  let zeros := (119 - len % 64) % 64
  let bitLen := (8 * len) % 18446744073709551616
  msg ++ [0x80] ++ List.replicate zeros 0 ++
    [bitLen / 0x100000000000000 % 256, bitLen / 0x1000000000000 % 256,
     bitLen / 0x10000000000 % 256, bitLen / 0x100000000 % 256,
     bitLen / 0x1000000 % 256, bitLen / 0x10000 % 256,
     bitLen / 0x100 % 256, bitLen % 256]

/-- Big-endian bytes of a 32-bit word. -/
def word32Bytes (x : Nat) : List Nat :=
  [x / 0x1000000 % 256, x / 0x10000 % 256, x / 0x100 % 256, x % 256]

/-- SHA-256 digest (32 bytes) of a byte string. -/
def sha256Bytes (msg : List Nat) : List Nat :=
  let st := (toBlocks (shaPad msg)).foldl shaCompress shaInit
  word32Bytes st.a ++ word32Bytes st.b ++ word32Bytes st.c ++ word32Bytes st.d ++
    word32Bytes st.e ++ word32Bytes st.f ++ word32Bytes st.g ++ word32Bytes st.h

/-- `hashlib.sha256(bs).hexdigest()`: lowercase hex of the 32-byte digest. -/
def sha256Hex (msg : List Nat) : String := bytesToHex (sha256Bytes msg)

/-! ### JSON values and Python `json.dumps` rendering

The record dictionaries passed to `serialize_record_data` hold
JSON-serializable values (strings, ints, booleans, `None`, lists) or
arbitrary objects, for which the source falls back to `str(value)`. -/

/-- A JSON-serializable Python value. -/
inductive JVal where
  | jstr (s : String)
  | jint (i : Int)
  | jbool (b : Bool)
  | jnull
  | jlist (l : List JVal)


/-- A Python value as seen by `serialize_record_data`: either JSON-serializable
(`json.dumps(value)` succeeds) or an object with a `str()` representation. -/
inductive PyVal where
  | json (v : JVal)
  | obj (s : String)


/-- Code-point lexicographic comparison of character lists: the order in
which Python compares `str` values (and `sort_keys=True` orders keys). -/
def charListLe : List Char → List Char → Bool
  | [], _ => true
  | _ :: _, [] => false
  | a :: as, b :: bs =>
    if a.toNat < b.toNat then true
    else if b.toNat < a.toNat then false
    else charListLe as bs

/-- Python `<=` on strings (code-point lexicographic). -/
def strLe (a b : String) : Bool := charListLe a.data b.data

/-- Four lowercase hex digits of a code unit (`\uXXXX` payload). -/
def hex4 (n : Nat) : String :=
  String.mk [hexDigit (n / 4096), hexDigit (n / 256), hexDigit (n / 16), hexDigit n]

/-- Escape one character as CPython's `ensure_ascii` JSON encoder does:
short escapes for the two specials and five controls, characters in
`0x20..0x7e` verbatim, everything else `\uXXXX` (surrogate pairs beyond
the BMP). -/
def escapeChar (c : Char) : String :=
  let n := c.toNat
  if c = '"' then "\\\""
  else if c = '\\' then "\\\\"
  else if n = 8 then "\\b"
  else if n = 9 then "\\t"
  else if n = 10 then "\\n"
  else if n = 12 then "\\f"
  else if n = 13 then "\\r"
  else if 0x20 ≤ n ∧ n ≤ 0x7e then String.singleton c
  else if n < 0x10000 then "\\u" ++ hex4 n
  else
    "\\u" ++ hex4 (0xd800 + (n - 0x10000) / 0x400) ++
      "\\u" ++ hex4 (0xdc00 + (n - 0x10000) % 0x400)

/-- JSON rendering of a Python string (quotes plus escaped body). -/
def pyJsonString (s : String) : String :=
  "\"" ++ String.join (s.data.map escapeChar) ++ "\""

mutual

/-- JSON rendering of one value, matching `json.dumps` defaults. -/
def renderJVal : JVal → String
  | .jstr s => pyJsonString s
  | .jint i => toString i
  | .jbool b => if b then "true" else "false"
  | .jnull => "null"
  | .jlist l => "[" ++ renderJValList l ++ "]"

/-- Comma-space separated rendering of a JSON array body. -/
def renderJValList : List JVal → String
  | [] => ""
  | [v] => renderJVal v
  | v :: w :: t => renderJVal v ++ ", " ++ renderJValList (w :: t)

end

/-- Rendering of dict items with the default `", "` / `": "` separators. -/
def renderItems : List (String × JVal) → String
  | [] => ""
  | [(k, v)] => pyJsonString k ++ ": " ++ renderJVal v
  | (k, v) :: p :: t => pyJsonString k ++ ": " ++ renderJVal v ++ ", " ++ renderItems (p :: t)

/-- Insert an item into an item list sorted by key (code-point order, the
order Python's `sort_keys=True` uses). -/
def insertByKey (p : String × JVal) : List (String × JVal) → List (String × JVal)
  | [] => [p]
  | q :: t => if strLe p.1 q.1 then p :: q :: t else q :: insertByKey p t

/-- Sort dict items by key. -/
def sortByKey (l : List (String × JVal)) : List (String × JVal) :=
  l.foldr insertByKey []

/-- `json.dumps(d, sort_keys=True)` on a string-keyed dict. -/
def dumpsSorted (d : List (String × JVal)) : String :=
  "\x7b" ++ renderItems (sortByKey d) ++ "\x7d"

/-! ### `server/hms/blockchain_service.py`: serialization and hashing

A Python dict is an association list in insertion order with unique keys;
`d[k] = v` is `dictSet` (replace in place, else append). -/

/-- Python dict assignment on an insertion-ordered association list. -/
def dictSet (d : List (String × JVal)) (k : String) (v : JVal) : List (String × JVal) :=
  match d with
  | [] => [(k, v)]
  | (k', v') :: t => if k' = k then (k, v) :: t else (k', v') :: dictSet t k v

/-- The default exclusion set of `serialize_record_data` and
`hash_model_instance` (blockchain_service.py lines 23 and 116). -/
def defaultExcludeFields : List String := ["blockchain_hash", "blockchain_tx_hash", "id"]

/-- `exclude_fields = exclude_fields or [...]`: `None` and the empty list are
falsy, so both are replaced by the default exclusion set. -/
def resolveExclude : Option (List String) → List String
  | none => defaultExcludeFields
  | some l => if l.isEmpty then defaultExcludeFields else l

/-- The value stored for a kept key: the value itself when JSON-serializable,
else its string representation (blockchain_service.py lines 29-34). -/
def cleanVal : PyVal → JVal
  | .json v => v
  | .obj s => .jstr s

/-- `serialize_record_data` (blockchain_service.py lines 12-37): drop excluded
keys, keep serializable values (falling back to `str`), dump with sorted keys. -/
def serialize_record_data (data : List (String × PyVal))
    (exclude_fields : Option (List String) := none) : String :=
  let excl := resolveExclude exclude_fields
  let cleaned := data.foldl
    (fun acc kv => if excl.contains kv.1 then acc else dictSet acc kv.1 (cleanVal kv.2)) []
  dumpsSorted cleaned

/-- `compute_hash` (blockchain_service.py lines 40-53): 0x-prefixed SHA-256
hex digest of the UTF-8 encoded serialization. -/
def compute_hash (data : List (String × PyVal))
    (exclude_fields : Option (List String) := none) : String :=
  "0x" ++ sha256Hex (utf8Encode (serialize_record_data data exclude_fields))

/-- The value of a Django concrete field: a foreign key holds an optional
referenced id, anything else holds a plain Python value. -/
inductive DjVal where
  | fk (id : Option Int)
  | plain (v : PyVal)


/-- One entry of `instance._meta.concrete_fields` together with its value. -/
structure DjField where
  name : String
  auto_created : Bool
  value : DjVal


/-- A Django model instance as `hash_model_instance` and `store_record_hash`
see it: class name, primary key, and the concrete fields in declaration order. -/
structure DjInstance where
  className : String
  pk : Int
  fields : List DjField


/-- The dict value built for one kept field of a model instance: FK fields
store `value.id if value else None`; other values as in
`serialize_record_data` (blockchain_service.py lines 126-135). -/
def djCleanVal : DjVal → JVal
  | .fk (some i) => .jint i
  | .fk none => .jnull
  | .plain v => cleanVal v

/-- `hash_model_instance` (blockchain_service.py lines 104-140): build a dict
from the non-auto-created, non-excluded concrete fields, dump with sorted
keys, return the 0x-prefixed SHA-256 hex digest. -/
def hash_model_instance (inst : DjInstance)
    (exclude_fields : Option (List String) := none) : String :=
  let excl := resolveExclude exclude_fields
  let data := inst.fields.foldl
    (fun acc f =>
      if f.auto_created || excl.contains f.name then acc
      else dictSet acc f.name (djCleanVal f.value)) []
  "0x" ++ sha256Hex (utf8Encode (dumpsSorted data))

/-! ### `server/blockchain/web3_client.py`: the chain client

Effectful primitives of the `web3` library (RPC calls, signing, the receipt
poll) are fields of a `W3Env` record holding each primitive's outcome:
`Except.ok v` when the underlying call returns `v`, `Except.error ()` when it
raises.  Each client function is the source's control flow over these
primitives; a `try`/`except` in the source becomes an explicit handler. -/

/-- One entry of the module-level `ABI` constant: its `name` and whether its
`type` is `"event"`. -/
structure AbiEntry where
  name : String
  isEvent : Bool

/-- The `ABI` constant (web3_client.py lines 31-122): eleven function
entries and no event entries. -/
def ABI : List AbiEntry :=
  [⟨"storeHash", false⟩, ⟨"storeRecord", false⟩, ⟨"getRecord", false⟩,
   ⟨"checkHash", false⟩, ⟨"owner", false⟩, ⟨"addAuthorized", false⟩,
   ⟨"removeAuthorized", false⟩, ⟨"isAuthorized", false⟩, ⟨"giveConsent", false⟩,
   ⟨"revokeConsent", false⟩, ⟨"hasConsent", false⟩]

/-- A receipt returned by `wait_for_transaction_receipt`, carrying the
`recordId` arguments of the `RecordStored` logs it contains. -/
structure ChainReceipt where
  recordStoredIds : List (List Nat)

/-- A receipt returned by `eth.get_transaction_receipt` in the `verify` view.
The library raises `TransactionNotFound` rather than returning a falsy
value, so a successful lookup always carries a (truthy) receipt object. -/
structure TxReceipt where
  blockNumber : Option Nat
  gasUsed : Option Nat

/-- Python truthiness of an optional string: `None` and `""` are falsy. -/
def pyTruthy : Option String → Bool
  | none => false
  | some s => !s.isEmpty

/-- The chain-client environment: configuration plus the outcome of every
effectful library primitive a client function may reach. -/
structure W3Env where
  USE_ETH_TESTER : Bool
  importOk : Bool
  PRIVATE_KEY : Option String
  deployedAddress : Option String
  w3Ok : Bool
  ethTesterAccount : Option String
  gasPrice : Except Unit Nat
  txCount : Except Unit Nat
  fromKey : Except Unit String
  sendTx : Except Unit String
  sendRawTx : Except Unit String
  callCheckHash : Except Unit Bool
  callOwner : Except Unit String
  callIsAuthorized : Except Unit Bool
  callHasConsent : Except Unit Bool
  callGetRecord : Except Unit String
  waitReceipt : Except Unit ChainReceipt
  isConnected : Except Unit Bool
  receiptLookup : Except Unit TxReceipt
  blockNumberRead : Except Unit Nat

/-- Field meanings: `importOk` is whether importing the chain-client module
succeeds; `deployedAddress` the contents of `deployed_address.txt` (`none`
when no file is found); `w3Ok` whether `get_w3()` returns an instance rather
than `None`; `ethTesterAccount` the default eth-tester account;
`gasPrice`/`txCount`/`fromKey` the outcomes of `w3.eth.gas_price`,
`w3.eth.get_transaction_count` and `w3.eth.account.from_key`; `sendTx` and
`sendRawTx` the outcomes of `send_transaction` and `send_raw_transaction`;
`call*` the outcomes of the read-only contract calls; `waitReceipt` the
outcome of `wait_for_transaction_receipt`; `isConnected`, `receiptLookup`
and `blockNumberRead` the primitives reached by the `verify` view. -/
def W3Env.describe : Unit := ()

/-- Python `str.startswith` on a literal prefix. -/
def pyStartsWith (s pre : String) : Bool := pre.data.isPrefixOf s.data

/-- Is `c` a hexadecimal digit, as `bytes.fromhex` accepts them. -/
def isHexDigitChar (c : Char) : Bool :=
  ('0' ≤ c && c ≤ '9') || ('a' ≤ c && c ≤ 'f') || ('A' ≤ c && c ≤ 'F')

/-- Numeric value of a hexadecimal digit. -/
def hexCharVal (c : Char) : Nat :=
  if '0' ≤ c && c ≤ '9' then c.toNat - '0'.toNat
  else if 'a' ≤ c && c ≤ 'f' then c.toNat - 'a'.toNat + 10
  else if 'A' ≤ c && c ≤ 'F' then c.toNat - 'A'.toNat + 10
  else 0

/-- Decode an even run of hex digits into bytes; raises on a non-digit or an
odd length (`bytes.fromhex`). -/
def hexPairsToBytes : List Char → Except Unit (List Nat)
  | [] => .ok []
  | [_] => .error ()
  | c1 :: c2 :: t =>
    if isHexDigitChar c1 && isHexDigitChar c2 then
      match hexPairsToBytes t with
      | .ok bs => .ok ((hexCharVal c1 * 16 + hexCharVal c2) :: bs)
      | .error e => .error e
    else .error ()

/-- `Web3.to_bytes(hexstr=s)` (eth_utils): strip a `0x`/`0X` prefix, left-pad
an odd-length body with one `0`, decode the hex pairs; raises on a non-hex
digit. -/
def to_bytes_hexstr (s : String) : Except Unit (List Nat) :=
  let body := if pyStartsWith s "0x" || pyStartsWith s "0X" then s.drop 2 else s
  let body := if body.length % 2 = 1 then "0" ++ body else body
  hexPairsToBytes body.data

/-- `Web3.to_hex` on a byte value: 0x-prefixed lowercase hex. -/
def to_hex_bytes (bs : List Nat) : String := "0x" ++ bytesToHex bs

/-- ASCII lowercasing of one character. -/
def pyCharLower (c : Char) : Char :=
  if c.toNat ≥ 65 && c.toNat ≤ 90 then Char.ofNat (c.toNat + 32) else c

/-- `Web3.to_checksum_address`: accepts a 40-hex-digit address with or
without a `0x` prefix and raises otherwise.  (EIP-55 casing of the result
never matters downstream here, so the body is returned lowercased.) -/
def to_checksum_address (s : String) : Except Unit String :=
  let body := if pyStartsWith s "0x" || pyStartsWith s "0X" then s.drop 2 else s
  if body.length = 40 && body.data.all isHexDigitChar then
    .ok ("0x" ++ String.mk (body.data.map pyCharLower))
  else .error ()

/-- `_load_contract` (web3_client.py lines 228-235): `None` under eth-tester
or when no deployed-address file exists; otherwise a contract object at the
file's address — built by dereferencing `w3.eth`, which raises when
`get_w3()` returned `None`. -/
def _load_contract (env : W3Env) : Except Unit (Option String) :=
  if env.USE_ETH_TESTER then .ok none
  else match env.deployedAddress with
    | none => .ok none
    | some addr => if env.w3Ok then .ok (some addr) else .error ()

/-- `compute_record_hash` (web3_client.py lines 238-242): bytes of a hex
string, normalizing a missing `0x` prefix. -/
def compute_record_hash (hex_prefixed_hash : String) : Except Unit (List Nat) :=
  if pyStartsWith hex_prefixed_hash "0x" then to_bytes_hexstr hex_prefixed_hash
  else to_bytes_hexstr ("0x" ++ hex_prefixed_hash)

/-- What a submitted transaction invokes, and on which path. -/
inductive TxAction where
  | callStoreHash (arg : List Nat)
  | callStoreRecord (arg : String)
  | selfTransfer (acct : String) (dataHex : String)

/-- Does this action invoke the contract's `storeHash` function? -/
def TxAction.isStoreHash : TxAction → Bool
  | .callStoreHash _ => true
  | _ => false

/-- A record of one transaction handed to the node: what it invokes and
whether it was signed locally with the configured private key. -/
structure TxRec where
  action : TxAction
  signed : Bool

/-- `send_hash_transaction` (web3_client.py lines 245-306).  Besides the
result, the list of transactions handed to the node is returned.  The
eth-tester branch (lines 257-279) runs inside `try`/`except` and simulates
the submission as an unsigned zero-value self-transfer whose `data` field
carries the hash; the HTTP branch builds and signs a `storeHash` contract
call and has no handler around its primitives (the middleware injection of
lines 282-285 swallows its own failure and is elided). -/
def send_hash_transaction (env : W3Env) (record_hash_hex : String) :
    Except Unit (Option String) × List TxRec :=
  if !pyTruthy env.PRIVATE_KEY && !env.USE_ETH_TESTER then (.ok none, [])
  else if env.USE_ETH_TESTER then
    match env.ethTesterAccount with
    | none => (.ok none, [])
    | some acct =>
      let dataHex :=
        if pyStartsWith record_hash_hex "0x" then "0x" ++ record_hash_hex.drop 2
        else record_hash_hex
      match (do let _ ← env.gasPrice; let _ ← env.txCount; pure () : Except Unit Unit) with
      | .error _ => (.ok none, [])
      | .ok _ =>
        match env.sendTx with
        | .ok t => (.ok (some t), [⟨.selfTransfer acct dataHex, false⟩])
        | .error _ => (.ok none, [⟨.selfTransfer acct dataHex, false⟩])
  else
    match _load_contract env with
    | .error e => (.error e, [])
    | .ok none => (.ok none, [])
    | .ok (some _) =>
      match (do let _ ← env.fromKey; let _ ← env.txCount;
                let rb ← compute_record_hash record_hash_hex;
                let _ ← env.gasPrice; pure rb : Except Unit (List Nat)) with
      | .error e => (.error e, [])
      | .ok record_bytes =>
        match env.sendRawTx with
        | .ok t => (.ok (some t), [⟨.callStoreHash record_bytes, true⟩])
        | .error e => (.error e, [⟨.callStoreHash record_bytes, true⟩])

/-- `send_record_transaction` (web3_client.py lines 309-339): build, sign and
submit a `storeRecord` contract call; no handler around its primitives. -/
def send_record_transaction (env : W3Env) (record_data : String) :
    Except Unit (Option String) × List TxRec :=
  if !pyTruthy env.PRIVATE_KEY && !env.USE_ETH_TESTER then (.ok none, [])
  else
    match _load_contract env with
    | .error e => (.error e, [])
    | .ok none => (.ok none, [])
    | .ok (some _) =>
      match (do let _ ← env.fromKey; let _ ← env.txCount;
                let _ ← env.gasPrice; pure () : Except Unit Unit) with
      | .error e => (.error e, [])
      | .ok _ =>
        match env.sendRawTx with
        | .ok t => (.ok (some t), [⟨.callStoreRecord record_data, true⟩])
        | .error e => (.error e, [⟨.callStoreRecord record_data, true⟩])

/-- `get_record_by_id` (web3_client.py lines 342-355): empty string when no
contract is loaded or when the read call raises (the call runs in `try`). -/
def get_record_by_id (env : W3Env) (record_id_hex : String) : Except Unit String :=
  match _load_contract env with
  | .error e => .error e
  | .ok none => .ok ""
  | .ok (some _) =>
    let record_id_hex :=
      if pyStartsWith record_id_hex "0x" then record_id_hex else "0x" ++ record_id_hex
    match (do let _ ← to_bytes_hexstr record_id_hex;
              env.callGetRecord : Except Unit String) with
    | .ok s => .ok s
    | .error _ => .ok ""

/-- `send_record_and_get_id` (web3_client.py lines 358-413): submit a
`storeRecord` transaction; optionally wait for the receipt (a failed wait is
swallowed, line 394-397) and extract the first `RecordStored` event of the
receipt (lines 399-411, in `try`: looking the event up on a contract whose
ABI declares no `RecordStored` entry raises, and the raise is swallowed). -/
def send_record_and_get_id (env : W3Env) (record_data : String)
    (wait_for_receipt : Bool := true) (timeout : Nat := 120) :
    Except Unit (Option String × Option String) × List TxRec :=
  if !pyTruthy env.PRIVATE_KEY && !env.USE_ETH_TESTER then (.ok (none, none), [])
  else
    match _load_contract env with
    | .error e => (.error e, [])
    | .ok none => (.ok (none, none), [])
    | .ok (some _) =>
      match (do let _ ← env.fromKey; let _ ← env.txCount;
                let _ ← env.gasPrice; pure () : Except Unit Unit) with
      | .error e => (.error e, [])
      | .ok _ =>
        match env.sendRawTx with
        | .error e => (.error e, [⟨.callStoreRecord record_data, true⟩])
        | .ok tx_hash_hex =>
          let trace : List TxRec := [⟨.callStoreRecord record_data, true⟩]
          if !wait_for_receipt then (.ok (some tx_hash_hex, none), trace)
          else
            match env.waitReceipt with
            | .error _ => (.ok (some tx_hash_hex, none), trace)
            | .ok receipt =>
              if ABI.any (fun e => e.isEvent && e.name == "RecordStored") then
                match receipt.recordStoredIds with
                | [] => (.ok (some tx_hash_hex, none), trace)
                | record_id :: _ =>
                  (.ok (some tx_hash_hex, some (to_hex_bytes record_id)), trace)
              else (.ok (some tx_hash_hex, none), trace)

/-- `check_hash_on_chain` (web3_client.py lines 416-422): `False` when no
contract is loaded; otherwise the bare `checkHash` call — no handler. -/
def check_hash_on_chain (env : W3Env) (record_hash_hex : String) : Except Unit Bool :=
  match _load_contract env with
  | .error e => .error e
  | .ok none => .ok false
  | .ok (some _) => do
    let _ ← compute_record_hash record_hash_hex
    env.callCheckHash

/-- `get_owner_address` (web3_client.py lines 425-430): `None` when no
contract is loaded; otherwise the bare `owner()` call — no handler. -/
def get_owner_address (env : W3Env) : Except Unit (Option String) :=
  match _load_contract env with
  | .error e => .error e
  | .ok none => .ok none
  | .ok (some _) => do
    let o ← env.callOwner
    pure (some o)

/-- `is_authorized_address` (web3_client.py lines 484-490): `False` when no
contract is loaded; otherwise the bare `isAuthorized` call — no handler. -/
def is_authorized_address (env : W3Env) (account_address : String) : Except Unit Bool :=
  match _load_contract env with
  | .error e => .error e
  | .ok none => .ok false
  | .ok (some _) => do
    let _ ← to_checksum_address account_address
    env.callIsAuthorized

/-- `has_patient_consent` (web3_client.py lines 544-551): `False` when no
contract is loaded; otherwise the bare `hasConsent` call — no handler. -/
def has_patient_consent (env : W3Env) (patient_address : String)
    (consent_type : String) : Except Unit Bool :=
  match _load_contract env with
  | .error e => .error e
  | .ok none => .ok false
  | .ok (some _) => do
    let _ ← to_checksum_address patient_address
    env.callHasConsent

/-! ### `server/hms/blockchain_service.py`: audit rows and anchoring -/

/-- A row of the `OnChainAudit` table. -/
structure OnChainAudit where
  record_type : String
  object_id : Int
  record_hash : String
  record_cid : Option String
  tx_hash : Option String

/-- `create_blockchain_record` (blockchain_service.py lines 56-83):
`OnChainAudit.objects.create(...)` appends one row to the table and returns
it. -/
def create_blockchain_record (record_type : String) (object_id : Int)
    (record_hash : String) (record_cid : Option String := none)
    (tx_hash : Option String := none) (db : List OnChainAudit) :
    OnChainAudit × List OnChainAudit :=
  let audit : OnChainAudit := ⟨record_type, object_id, record_hash, record_cid, tx_hash⟩
  (audit, db ++ [audit])

/-- `send_hash_to_blockchain` (blockchain_service.py lines 86-101): both the
chain-client import and the call run inside `try`; any exception yields
`None`. -/
def send_hash_to_blockchain (env : W3Env) (record_hash : String) : Option String :=
  if !env.importOk then none
  else
    match (send_hash_transaction env record_hash).1 with
    | .ok r => r
    | .error _ => none

/-- Assignment to a named attribute of a model instance (followed by `save`):
replaces the value of that concrete field. -/
def setInstanceField (inst : DjInstance) (n : String) (v : DjVal) : DjInstance :=
  { inst with
    fields := inst.fields.map fun f => if f.name = n then { f with value := v } else f }

/-- `store_record_hash` (blockchain_service.py lines 143-171): compute the
hash, best-effort send it to the chain, create the audit row, optionally
write the two denormalized fields back to the instance.  The result is the
source's `(record_hash, tx_hash, audit)` triple together with the updated
instance and table. -/
def store_record_hash (env : W3Env) (inst : DjInstance)
    (update_instance : Bool := true) (db : List OnChainAudit) :
    Except Unit ((String × Option String × OnChainAudit) × DjInstance × List OnChainAudit) :=
  let record_hash := hash_model_instance inst
  let tx_hash := send_hash_to_blockchain env record_hash
  let (audit, db') :=
    create_blockchain_record inst.className inst.pk record_hash none tx_hash db
  let inst' :=
    if update_instance then
      setInstanceField
        (setInstanceField inst "blockchain_hash" (.plain (.json (.jstr record_hash))))
        "blockchain_tx_hash"
        (.plain (.json (match tx_hash with | some t => .jstr t | none => .jnull)))
    else inst
  .ok ((record_hash, tx_hash, audit), inst', db')

/-! ### The `verify` action of `AuditsViewSet` (`server/hms/views.py`) -/

/-- The fields of the JSON body built by `verify` that depend on the chain:
`verified`, `status`, `block_number`, `gas_used`, `confirmations`, and
whether the exception-fallback body (the one carrying an `error` key) was
produced. -/
structure VerifyResponse where
  verified : Bool
  status : String
  block_number : Option Nat
  gas_used : Option Nat
  confirmations : Int
  hasError : Bool

/-- The `verify` action (views.py lines 245-303).  The whole body runs in an
outer `try` whose handler answers with `verified = bool(audit.tx_hash)` and
status `confirmed`; the receipt lookup and the confirmation count run in an
inner `try` whose handler re-assigns `verified = bool(audit.tx_hash)`.
`if block_number:` treats block 0 as falsy, so the confirmation count stays
0 there. -/
def auditsVerify (env : W3Env) (audit : OnChainAudit) : VerifyResponse :=
  let fallback : VerifyResponse := ⟨pyTruthy audit.tx_hash, "confirmed", none, none, 0, true⟩
  if !env.importOk || !env.w3Ok then fallback
  else
    match env.isConnected with
    | .error _ => fallback
    | .ok is_connected =>
      if is_connected && pyTruthy audit.tx_hash then
        match env.receiptLookup with
        | .ok receipt =>
          (match env.blockNumberRead with
           | .ok current_block =>
             let confirmations : Int :=
               match receipt.blockNumber with
               | some b => if b = 0 then 0 else (current_block : Int) - (b : Int)
               | none => 0
             ⟨true, "verified", receipt.blockNumber, receipt.gasUsed, confirmations, false⟩
           | .error _ =>
             ⟨pyTruthy audit.tx_hash,
              if pyTruthy audit.tx_hash then "verified" else "confirmed",
              receipt.blockNumber, receipt.gasUsed, 0, false⟩)
        | .error _ =>
          ⟨pyTruthy audit.tx_hash,
           if pyTruthy audit.tx_hash then "verified" else "confirmed", none, none, 0, false⟩
      else if pyTruthy audit.tx_hash then ⟨true, "verified", none, none, 0, false⟩
      else ⟨false, "confirmed", none, none, 0, false⟩

/-! ### Support definitions for the claims -/

/-- Is every character of `s` a lowercase hexadecimal digit? -/
def isLowerHexStr (s : String) : Bool := s.data.all fun c => hexDigits.contains c

/-- Is an `Except` outcome a success? -/
def exOk {ε α : Type} : Except ε α → Bool
  | .ok _ => true
  | .error _ => false

/-- The second component of a successful pair result (`none` on error). -/
def okSnd {α β : Type} : Except Unit (α × Option β) → Option β
  | .ok r => r.2
  | .error _ => none

/-- A fully configured HTTP-path environment in which every library
primitive succeeds. -/
def envHttp : W3Env where
  USE_ETH_TESTER := false
  importOk := true
  PRIVATE_KEY := some "0xsecret"
  deployedAddress := some "0xContractAddr"
  w3Ok := true
  ethTesterAccount := none
  gasPrice := .ok 1000000000
  txCount := .ok 7
  fromKey := .ok "0xSenderAddr"
  sendTx := .ok "0xsimtx"
  sendRawTx := .ok "0xrawtx"
  callCheckHash := .ok true
  callOwner := .ok "0xOwnerAddr"
  callIsAuthorized := .ok true
  callHasConsent := .ok true
  callGetRecord := .ok "stored-record"
  waitReceipt := .ok ⟨[]⟩
  isConnected := .ok true
  receiptLookup := .ok ⟨some 5, some 21000⟩
  blockNumberRead := .ok 9

/-- `envHttp` with every contract call and the raw submission raising
(provider became unreachable after the contract was loaded). -/
def envCallFail : W3Env :=
  { envHttp with
    callCheckHash := .error (), callOwner := .error (), callIsAuthorized := .error (),
    callHasConsent := .error (), callGetRecord := .error (), sendRawTx := .error () }

/-- `envHttp` in test-chain mode (no private key, an eth-tester account). -/
def envTester : W3Env :=
  { envHttp with
    USE_ETH_TESTER := true, PRIVATE_KEY := none, ethTesterAccount := some "0xa1" }

/-- `envHttp` with neither a private key nor test-chain mode. -/
def envNoCfg : W3Env := { envHttp with PRIVATE_KEY := none }

/-- `envHttp` without a deployed-address file. -/
def envNoContract : W3Env := { envHttp with deployedAddress := none }

/-- `envHttp` whose chain-client module fails to import. -/
def envImportFail : W3Env := { envHttp with importOk := false }

/-- `envHttp` whose receipt wait times out. -/
def envWaitFail : W3Env := { envHttp with waitReceipt := .error () }

/-- `envHttp` whose receipt wait returns a receipt containing one
`RecordStored` log with record id `0x0102`. -/
def envEvent : W3Env := { envHttp with waitReceipt := .ok ⟨[[1, 2]]⟩ }

/-- A record dictionary: payload fields plus an excluded hash field. -/
def dataW1 : List (String × PyVal) :=
  [("name", .json (.jstr "A")), ("age", .json (.jint 30)),
   ("blockchain_hash", .json (.jstr "0xold"))]

/-- The same payload as `dataW1` in another insertion order, with a
different excluded-field value. -/
def dataW2 : List (String × PyVal) :=
  [("age", .json (.jint 30)), ("blockchain_hash", .json (.jstr "0xnew")),
   ("name", .json (.jstr "A"))]

/-- A small patient-like instance: an excluded `id`, two included fields,
the denormalized hash fields, and one auto-created field. -/
def instW1 : DjInstance :=
  ⟨"Patient", 1,
   [⟨"id", false, .plain (.json (.jint 1))⟩,
    ⟨"first_name", false, .plain (.json (.jstr "Test"))⟩,
    ⟨"doctor", false, .fk (some 5)⟩,
    ⟨"blockchain_hash", false, .plain (.json .jnull)⟩,
    ⟨"blockchain_tx_hash", false, .plain (.json .jnull)⟩,
    ⟨"rev", true, .plain (.json (.jint 9))⟩]⟩

/-- The same included field values as `instW1` in a different field order,
with different excluded and auto-created values. -/
def instW2 : DjInstance :=
  ⟨"Patient", 1,
   [⟨"doctor", false, .fk (some 5)⟩,
    ⟨"id", false, .plain (.json (.jint 2))⟩,
    ⟨"first_name", false, .plain (.json (.jstr "Test"))⟩,
    ⟨"blockchain_hash", false, .plain (.json (.jstr "0xstale"))⟩,
    ⟨"blockchain_tx_hash", false, .plain (.json .jnull)⟩,
    ⟨"rev", true, .plain (.json (.jint 10))⟩]⟩

/-! ### Sorting and dict-building lemmas -/

theorem charListLe_refl (as : List Char) : charListLe as as = true := by
  induction as with
  | nil => rfl
  | cons a t ih => simp [charListLe, ih]

theorem charListLe_total : ∀ (as bs : List Char),
    charListLe as bs = true ∨ charListLe bs as = true := by
  intro as
  induction as with
  | nil => intro bs; left; rfl
  | cons a t ih =>
    intro bs
    cases bs with
    | nil => right; rfl
    | cons b u =>
      simp only [charListLe]
      rcases Nat.lt_trichotomy a.toNat b.toNat with h | h | h
      · left; simp [h]
      · rw [h]
        simp only [lt_self_iff_false, if_false]
        exact ih u
      · right; simp [h]

theorem charListLe_trans : ∀ (as bs cs : List Char), charListLe as bs = true →
    charListLe bs cs = true → charListLe as cs = true := by
  intro as
  induction as with
  | nil => intro bs cs _ _; rfl
  | cons a t ih =>
    intro bs cs hab hbc
    cases bs with
    | nil => simp [charListLe] at hab
    | cons b u =>
      cases cs with
      | nil => simp [charListLe] at hbc
      | cons c v =>
        simp only [charListLe] at hab hbc ⊢
        by_cases h1 : a.toNat < b.toNat
        · by_cases h2 : b.toNat < c.toNat
          · simp [Nat.lt_trans h1 h2]
          · by_cases h3 : c.toNat < b.toNat
            · rw [if_neg h2, if_pos h3] at hbc
              exact absurd hbc (by simp)
            · have hac : a.toNat < c.toNat := by omega
              simp [hac]
        · by_cases h2 : b.toNat < a.toNat
          · rw [if_neg h1, if_pos h2] at hab
            exact absurd hab (by simp)
          · rw [if_neg h1, if_neg h2] at hab
            by_cases h3 : b.toNat < c.toNat
            · have hac : a.toNat < c.toNat := by omega
              simp [hac]
            · by_cases h4 : c.toNat < b.toNat
              · rw [if_neg h3, if_pos h4] at hbc
                exact absurd hbc (by simp)
              · rw [if_neg h3, if_neg h4] at hbc
                have h5 : ¬ a.toNat < c.toNat := by omega
                have h6 : ¬ c.toNat < a.toNat := by omega
                rw [if_neg h5, if_neg h6]
                exact ih u v hab hbc

theorem charListLe_antisymm : ∀ (as bs : List Char), charListLe as bs = true →
    charListLe bs as = true → as = bs := by
  intro as
  induction as with
  | nil =>
    intro bs _ h2
    cases bs with
    | nil => rfl
    | cons b u => simp [charListLe] at h2
  | cons a t ih =>
    intro bs h1 h2
    cases bs with
    | nil => simp [charListLe] at h1
    | cons b u =>
      simp only [charListLe] at h1 h2
      by_cases hl : a.toNat < b.toNat
      · rw [if_neg (by omega : ¬ b.toNat < a.toNat), if_pos hl] at h2
        exact absurd h2 (by simp)
      · by_cases hg : b.toNat < a.toNat
        · rw [if_neg hl, if_pos hg] at h1
          exact absurd h1 (by simp)
        · rw [if_neg hl, if_neg hg] at h1
          rw [if_neg hg, if_neg hl] at h2
          have htn : a.toNat = b.toNat := by omega
          have hab : a = b := Char.eq_of_val_eq (UInt32.toNat.inj htn)
          rw [hab, ih u h1 h2]

theorem strLe_total (a b : String) : strLe a b = true ∨ strLe b a = true :=
  charListLe_total a.data b.data

theorem strLe_trans {a b c : String} (h1 : strLe a b = true) (h2 : strLe b c = true) :
    strLe a c = true :=
  charListLe_trans a.data b.data c.data h1 h2

theorem strLe_antisymm {a b : String} (h1 : strLe a b = true) (h2 : strLe b a = true) :
    a = b := by
  have := charListLe_antisymm a.data b.data h1 h2
  exact String.ext this

theorem insertByKey_perm (p : String × JVal) (l : List (String × JVal)) :
    List.Perm (insertByKey p l) (p :: l) := by
  induction l with
  | nil => simp [insertByKey]
  | cons q t ih =>
    simp only [insertByKey]
    by_cases h : strLe p.1 q.1 = true
    · rw [if_pos h]
    · rw [if_neg h]
      exact (ih.cons q).trans (List.Perm.swap p q t)

theorem sortByKey_perm (l : List (String × JVal)) : List.Perm (sortByKey l) l := by
  induction l with
  | nil => simp [sortByKey]
  | cons p t ih =>
    simp only [sortByKey, List.foldr_cons]
    exact (insertByKey_perm p _).trans (ih.cons p)

theorem insertByKey_sorted (p : String × JVal) {t : List (String × JVal)}
    (h : t.Pairwise (fun a b => strLe a.1 b.1 = true)) :
    (insertByKey p t).Pairwise (fun a b => strLe a.1 b.1 = true) := by
  induction t with
  | nil => simp [insertByKey]
  | cons q r ih =>
    rcases List.pairwise_cons.mp h with ⟨hq, hr⟩
    simp only [insertByKey]
    by_cases hpq : strLe p.1 q.1 = true
    · rw [if_pos hpq]
      refine List.pairwise_cons.mpr ⟨?_, h⟩
      intro x hx
      rcases List.mem_cons.mp hx with rfl | hx
      · exact hpq
      · exact strLe_trans hpq (hq x hx)
    · rw [if_neg hpq]
      refine List.pairwise_cons.mpr ⟨?_, ih hr⟩
      intro x hx
      rcases List.mem_cons.mp ((insertByKey_perm p r).mem_iff.mp hx) with rfl | hx
      · exact (strLe_total _ _).resolve_left hpq
      · exact hq x hx

theorem sortByKey_sorted (l : List (String × JVal)) :
    (sortByKey l).Pairwise (fun a b => strLe a.1 b.1 = true) := by
  induction l with
  | nil => simp [sortByKey]
  | cons p t ih =>
    simp only [sortByKey, List.foldr_cons]
    exact insertByKey_sorted p ih

theorem sorted_key_nodup_eq {l₁ l₂ : List (String × JVal)} (hp : List.Perm l₁ l₂)
    (hs₁ : l₁.Pairwise (fun a b => strLe a.1 b.1 = true))
    (hs₂ : l₂.Pairwise (fun a b => strLe a.1 b.1 = true))
    (hn : (l₁.map Prod.fst).Nodup) : l₁ = l₂ := by
  have hn₂ : (l₂.map Prod.fst).Nodup := ((hp.map Prod.fst).nodup_iff).mp hn
  have key : ∀ {l : List (String × JVal)},
      l.Pairwise (fun a b => strLe a.1 b.1 = true) → (l.map Prod.fst).Nodup →
      l.Pairwise (fun a b => strLe a.1 b.1 = true ∧ a.1 ≠ b.1) := by
    intro l hle hnd
    have hne : l.Pairwise (fun a b => a.1 ≠ b.1) := List.pairwise_map.mp hnd
    exact hle.and hne
  haveI : IsAntisymm (String × JVal) (fun a b => strLe a.1 b.1 = true ∧ a.1 ≠ b.1) :=
    ⟨fun _ _ h1 h2 => (h1.2 (strLe_antisymm h1.1 h2.1)).elim⟩
  exact List.eq_of_perm_of_sorted hp (key hs₁ hn) (key hs₂ hn₂)

theorem dictSet_eq_append {d : List (String × JVal)} {k : String} (v : JVal)
    (h : k ∉ d.map Prod.fst) : dictSet d k v = d ++ [(k, v)] := by
  induction d with
  | nil => rfl
  | cons q t ih =>
    simp only [List.map_cons, List.mem_cons] at h
    push_neg at h
    simp only [dictSet]
    rw [if_neg (fun e => h.1 e.symm), ih h.2]
    rfl

theorem foldl_dictSet_eq {α : Type} (skip : α → Bool) (key : α → String)
    (val : α → JVal) :
    ∀ (l : List α) (acc : List (String × JVal)), (l.map key).Nodup →
      (∀ a ∈ l, key a ∉ acc.map Prod.fst) →
      l.foldl (fun acc a => if skip a then acc else dictSet acc (key a) (val a)) acc =
        acc ++ (l.filter fun a => !skip a).map fun a => (key a, val a) := by
  intro l
  induction l with
  | nil => simp
  | cons a t ih =>
    intro acc hnd hdis
    simp only [List.map_cons, List.nodup_cons] at hnd
    simp only [List.foldl_cons]
    by_cases hs : skip a
    · rw [if_pos hs, ih acc hnd.2 (fun b hb => hdis b (List.mem_cons_of_mem a hb))]
      simp [List.filter_cons, hs]
    · have hsb : skip a = false := Bool.not_eq_true _ ▸ eq_false_of_ne_true hs
      rw [if_neg hs, dictSet_eq_append (val a) (hdis a (List.mem_cons_self a t))]
      rw [ih (acc ++ [(key a, val a)]) hnd.2 ?_]
      · simp [List.filter_cons, hsb]
      · intro b hb
        simp only [List.map_append, List.mem_append, List.map_cons, List.map_nil,
          List.mem_cons, List.not_mem_nil, or_false]
        rintro (hmem | heq)
        · exact hdis b (List.mem_cons_of_mem a hb) hmem
        · exact hnd.1 (List.mem_map.mpr ⟨b, hb, heq⟩)

/-- Determinism of `serialize_record_data`: dictionaries with unique keys
that agree (as key-value sets) on the non-excluded fields serialize
identically. -/
theorem serialize_eq_of_perm (ex : Option (List String))
    {l₁ l₂ : List (String × PyVal)}
    (h₁ : (l₁.map Prod.fst).Nodup) (h₂ : (l₂.map Prod.fst).Nodup)
    (hp : List.Perm (l₁.filter fun kv => !(resolveExclude ex).contains kv.1)
          (l₂.filter fun kv => !(resolveExclude ex).contains kv.1)) :
    serialize_record_data l₁ ex = serialize_record_data l₂ ex := by
  have build : ∀ (l : List (String × PyVal)), (l.map Prod.fst).Nodup →
      l.foldl (fun acc kv =>
        if (resolveExclude ex).contains kv.1 then acc
        else dictSet acc kv.1 (cleanVal kv.2)) [] =
      (l.filter fun kv => !(resolveExclude ex).contains kv.1).map
        fun kv => (kv.1, cleanVal kv.2) := by
    intro l hnd
    have := foldl_dictSet_eq (fun kv => (resolveExclude ex).contains kv.1)
      (fun kv : String × PyVal => kv.1) (fun kv => cleanVal kv.2) l [] ?_ ?_
    · simpa using this
    · simpa using hnd
    · simp
  have hm : List.Perm
      ((l₁.filter fun kv => !(resolveExclude ex).contains kv.1).map
        fun kv => (kv.1, cleanVal kv.2))
      ((l₂.filter fun kv => !(resolveExclude ex).contains kv.1).map
        fun kv => (kv.1, cleanVal kv.2)) := hp.map _
  have hkeys : (((l₁.filter fun kv => !(resolveExclude ex).contains kv.1).map
      (fun kv => (kv.1, cleanVal kv.2))).map Prod.fst).Nodup := by
    rw [List.map_map]
    have hsub : (l₁.filter fun kv => !(resolveExclude ex).contains kv.1).map
        (Prod.fst ∘ fun kv : String × PyVal => (kv.1, cleanVal kv.2)) =
        (l₁.filter fun kv => !(resolveExclude ex).contains kv.1).map Prod.fst := by
      simp [Function.comp]
    rw [hsub]
    exact ((List.filter_sublist l₁).map Prod.fst).nodup h₁
  have hsorteq : sortByKey ((l₁.filter fun kv => !(resolveExclude ex).contains kv.1).map
        fun kv => (kv.1, cleanVal kv.2)) =
      sortByKey ((l₂.filter fun kv => !(resolveExclude ex).contains kv.1).map
        fun kv => (kv.1, cleanVal kv.2)) := by
    refine sorted_key_nodup_eq ?_ (sortByKey_sorted _) (sortByKey_sorted _) ?_
    · exact (sortByKey_perm _).trans (hm.trans (sortByKey_perm _).symm)
    · exact (((sortByKey_perm _).map Prod.fst).nodup_iff).mpr hkeys
  simp only [serialize_record_data]
  rw [build l₁ h₁, build l₂ h₂]
  simp only [dumpsSorted]
  rw [hsorteq]

/-- Determinism of `hash_model_instance`: instances with unique field names
that agree (as name-value sets) on the included concrete fields hash
identically. -/
theorem hash_model_eq_of_perm (ex : Option (List String)) {i₁ i₂ : DjInstance}
    (h₁ : (i₁.fields.map DjField.name).Nodup)
    (h₂ : (i₂.fields.map DjField.name).Nodup)
    (hp : List.Perm
      (i₁.fields.filter fun f => !(f.auto_created || (resolveExclude ex).contains f.name))
      (i₂.fields.filter fun f => !(f.auto_created || (resolveExclude ex).contains f.name))) :
    hash_model_instance i₁ ex = hash_model_instance i₂ ex := by
  have build : ∀ (i : DjInstance), (i.fields.map DjField.name).Nodup →
      i.fields.foldl (fun acc f =>
        if f.auto_created || (resolveExclude ex).contains f.name then acc
        else dictSet acc f.name (djCleanVal f.value)) [] =
      (i.fields.filter fun f =>
        !(f.auto_created || (resolveExclude ex).contains f.name)).map
        fun f => (f.name, djCleanVal f.value) := by
    intro i hnd
    have := foldl_dictSet_eq
      (fun f : DjField => f.auto_created || (resolveExclude ex).contains f.name)
      (fun f : DjField => f.name) (fun f : DjField => djCleanVal f.value) i.fields [] ?_ ?_
    · simpa using this
    · simpa using hnd
    · simp
  have hm := hp.map fun f : DjField => (f.name, djCleanVal f.value)
  have hkeys : (((i₁.fields.filter fun f =>
      !(f.auto_created || (resolveExclude ex).contains f.name)).map
      (fun f => (f.name, djCleanVal f.value))).map Prod.fst).Nodup := by
    rw [List.map_map]
    have hsub : (i₁.fields.filter fun f =>
        !(f.auto_created || (resolveExclude ex).contains f.name)).map
        (Prod.fst ∘ fun f : DjField => (f.name, djCleanVal f.value)) =
        (i₁.fields.filter fun f =>
          !(f.auto_created || (resolveExclude ex).contains f.name)).map DjField.name := by
      simp [Function.comp]
    rw [hsub]
    exact ((List.filter_sublist i₁.fields).map DjField.name).nodup h₁
  have hsorteq : sortByKey ((i₁.fields.filter fun f =>
        !(f.auto_created || (resolveExclude ex).contains f.name)).map
        fun f => (f.name, djCleanVal f.value)) =
      sortByKey ((i₂.fields.filter fun f =>
        !(f.auto_created || (resolveExclude ex).contains f.name)).map
        fun f => (f.name, djCleanVal f.value)) := by
    refine sorted_key_nodup_eq ?_ (sortByKey_sorted _) (sortByKey_sorted _) ?_
    · exact (sortByKey_perm _).trans (hm.trans (sortByKey_perm _).symm)
    · exact (((sortByKey_perm _).map Prod.fst).nodup_iff).mpr hkeys
  simp only [hash_model_instance]
  rw [build i₁ h₁, build i₂ h₂]
  simp only [dumpsSorted]
  rw [hsorteq]

/-! ### Digest-format lemmas -/

theorem sha256Bytes_length (msg : List Nat) : (sha256Bytes msg).length = 32 := by
  simp [sha256Bytes, word32Bytes]

theorem flatMap_byteHexChars_length (bs : List Nat) :
    (bs.flatMap byteHexChars).length = 2 * bs.length := by
  induction bs with
  | nil => rfl
  | cons b t ih =>
    simp only [List.flatMap_cons, byteHexChars, List.length_append, List.length_cons,
      List.length_nil, ih]
    omega

theorem bytesToHex_length (bs : List Nat) : (bs.flatMap byteHexChars).length = 2 * bs.length →
    (bytesToHex bs).length = 2 * bs.length := by
  intro h
  simpa [bytesToHex, String.length_mk] using h

theorem sha256Hex_length (msg : List Nat) : (sha256Hex msg).length = 64 := by
  have h := flatMap_byteHexChars_length (sha256Bytes msg)
  rw [sha256Bytes_length] at h
  simpa [sha256Hex, bytesToHex, String.length_mk] using h

theorem hexDigit_mem (n : Nat) : hexDigit n ∈ hexDigits := by
  unfold hexDigit
  have hk : n % 16 < 16 := Nat.mod_lt n (by omega)
  set k := n % 16 with hkdef
  interval_cases k <;> decide

theorem bytesToHex_lowerHex (bs : List Nat) : isLowerHexStr (bytesToHex bs) = true := by
  simp only [isLowerHexStr, bytesToHex, List.all_eq_true]
  intro c hc
  rcases List.mem_flatMap.mp hc with ⟨b, _, hcb⟩
  simp only [byteHexChars, List.mem_cons, List.not_mem_nil, or_false] at hcb
  have hmem : c ∈ hexDigits := by
    rcases hcb with rfl | rfl
    · exact hexDigit_mem _
    · exact hexDigit_mem _
  exact List.elem_eq_true_of_mem hmem

theorem pyStartsWith_append_0x (h : String) : pyStartsWith ("0x" ++ h) "0x" = true := by
  have : ("0x" ++ h).data = '0' :: 'x' :: h.data := by
    rw [String.data_append]
    rfl
  simp [pyStartsWith, this, List.isPrefixOf]

theorem except_bind_ok {α β : Type} (a : α) (f : α → Except Unit β) :
    (Except.ok a >>= f : Except Unit β) = f a := rfl

theorem except_bind_error {α β : Type} (e : Unit) (f : α → Except Unit β) :
    ((Except.error e : Except Unit α) >>= f) = Except.error e := rfl

theorem unit_eq (e : Unit) : e = () := rfl

/-! ### The claims -/

/-- C1: for every two record dictionaries with identical field values after
removing the excluded fields, `compute_hash` returns identical hash strings
regardless of field insertion order, and `hash_model_instance` does the same
for model instances with identical included field values — keys are sorted
before serialization. -/
theorem claim_C1_hash_insertion_order_invariant :
    (∀ (ex : Option (List String)) (l₁ l₂ : List (String × PyVal)),
      (l₁.map Prod.fst).Nodup → (l₂.map Prod.fst).Nodup →
      List.Perm (l₁.filter fun kv => !(resolveExclude ex).contains kv.1)
        (l₂.filter fun kv => !(resolveExclude ex).contains kv.1) →
      compute_hash l₁ ex = compute_hash l₂ ex) ∧
    (∀ (ex : Option (List String)) (i₁ i₂ : DjInstance),
      (i₁.fields.map DjField.name).Nodup → (i₂.fields.map DjField.name).Nodup →
      List.Perm
        (i₁.fields.filter fun f =>
          !(f.auto_created || (resolveExclude ex).contains f.name))
        (i₂.fields.filter fun f =>
          !(f.auto_created || (resolveExclude ex).contains f.name)) →
      hash_model_instance i₁ ex = hash_model_instance i₂ ex) := by
  constructor
  · intro ex l₁ l₂ h₁ h₂ hp
    unfold compute_hash
    rw [serialize_eq_of_perm ex h₁ h₂ hp]
  · intro ex i₁ i₂ h₁ h₂ hp
    exact hash_model_eq_of_perm ex h₁ h₂ hp

/-- Witness for C1: two dictionaries (and two instances) with the same
included values in different insertion orders, differing on excluded
fields, hash identically. -/
theorem claim_C1_witness :
    compute_hash dataW1 = compute_hash dataW2 ∧
    hash_model_instance instW1 = hash_model_instance instW2 := by
  constructor
  · exact claim_C1_hash_insertion_order_invariant.1 none dataW1 dataW2
      (by decide) (by decide)
      (List.Perm.swap (("age", PyVal.json (JVal.jint 30)) : String × PyVal)
        (("name", PyVal.json (JVal.jstr "A")) : String × PyVal) [])
  · exact claim_C1_hash_insertion_order_invariant.2 none instW1 instW2
      (by decide) (by decide)
      (List.Perm.swap (⟨"doctor", false, DjVal.fk (some 5)⟩ : DjField)
        (⟨"first_name", false, DjVal.plain (PyVal.json (JVal.jstr "Test"))⟩ : DjField) [])

/-- C2: whenever the chain-client import fails, or `send_hash_transaction`
raises or is not configured, `store_record_hash` still returns normally with
`tx_hash` absent: the hash is computed, the audit row is written and the
instance update proceeds. -/
theorem claim_C2_chain_failure_swallowed :
    ∀ (env : W3Env) (inst : DjInstance) (upd : Bool) (db : List OnChainAudit),
      (env.importOk = false ∨
        (send_hash_transaction env (hash_model_instance inst)).1 = .error () ∨
        (send_hash_transaction env (hash_model_instance inst)).1 = .ok none) →
      store_record_hash env inst upd db =
        .ok ((hash_model_instance inst, none,
              ⟨inst.className, inst.pk, hash_model_instance inst, none, none⟩),
             (if upd then
                setInstanceField
                  (setInstanceField inst "blockchain_hash"
                    (.plain (.json (.jstr (hash_model_instance inst)))))
                  "blockchain_tx_hash" (.plain (.json .jnull))
              else inst),
             db ++ [⟨inst.className, inst.pk, hash_model_instance inst, none, none⟩]) := by
  intro env inst upd db h
  have htx : send_hash_to_blockchain env (hash_model_instance inst) = none := by
    unfold send_hash_to_blockchain
    rcases h with h | h | h
    · simp [h]
    · cases hio : env.importOk <;> simp [hio, h]
    · cases hio : env.importOk <;> simp [hio, h]
  simp only [store_record_hash, create_blockchain_record, htx]

/-- Witness for C2: a failing chain-client import leaves the audit row and
the updated instance intact with an absent `tx_hash`. -/
theorem claim_C2_witness :
    store_record_hash envImportFail instW1 true [] =
      .ok ((hash_model_instance instW1, none,
            ⟨"Patient", 1, hash_model_instance instW1, none, none⟩),
           setInstanceField
             (setInstanceField instW1 "blockchain_hash"
               (.plain (.json (.jstr (hash_model_instance instW1)))))
             "blockchain_tx_hash" (.plain (.json .jnull)),
           [⟨"Patient", 1, hash_model_instance instW1, none, none⟩]) := by
  have h := claim_C2_chain_failure_swallowed envImportFail instW1 true [] (Or.inl rfl)
  simpa [instW1] using h

/-- C3: every invocation of `store_record_hash` appends exactly one
`OnChainAudit` row — the returned one — to the table, whatever the chain
outcome. -/
theorem claim_C3_exactly_one_audit_row :
    ∀ (env : W3Env) (inst : DjInstance) (upd : Bool) (db : List OnChainAudit),
      ∃ res, store_record_hash env inst upd db = .ok res ∧
        res.2.2 = db ++ [res.1.2.2] ∧ res.2.2.length = db.length + 1 := by
  intro env inst upd db
  refine ⟨_, rfl, rfl, ?_⟩
  simp

/-- C9: an empty exclusion list is falsy in `exclude_fields or [...]` and is
replaced by the default exclusion set, exactly as a missing argument is — a
caller can never request that nothing be excluded. -/
theorem claim_C9_empty_exclusion_is_default :
    resolveExclude (some []) = defaultExcludeFields ∧
    (∀ data, serialize_record_data data (some []) = serialize_record_data data none) ∧
    (∀ data, compute_hash data (some []) = compute_hash data none) ∧
    (∀ inst, hash_model_instance inst (some []) = hash_model_instance inst none) :=
  ⟨rfl, fun _ => rfl, fun _ => rfl, fun _ => rfl⟩

/-- C10: for every hex string not starting with `0x`, `compute_record_hash`
agrees on the bare and the `0x`-prefixed spelling. -/
theorem claim_C10_prefix_normalization :
    ∀ h : String, pyStartsWith h "0x" = false →
      compute_record_hash h = compute_record_hash ("0x" ++ h) := by
  intro h hn
  unfold compute_record_hash
  rw [hn, pyStartsWith_append_0x]
  simp

/-- Witness for C10 at the bare hex string `12ab`. -/
theorem claim_C10_witness :
    pyStartsWith "12ab" "0x" = false ∧
    compute_record_hash "12ab" = compute_record_hash "0x12ab" :=
  ⟨rfl, claim_C10_prefix_normalization "12ab" rfl⟩

set_option maxRecDepth 1000000 in
/-- C7: `compute_hash` returns `0x` followed by the 64-character lowercase
hexadecimal SHA-256 digest of the UTF-8 encoding of the sorted-keys JSON
serialization (66 characters in total), and the example dictionary with
fields `name = "A"`, `age = 30` hashes identically under either insertion
order. -/
theorem claim_C7_hash_format :
    (∀ (data : List (String × PyVal)) (ex : Option (List String)),
      compute_hash data ex =
        "0x" ++ sha256Hex (utf8Encode (serialize_record_data data ex))) ∧
    (∀ (data : List (String × PyVal)) (ex : Option (List String)),
      ∃ d, compute_hash data ex = "0x" ++ d ∧ d.length = 64 ∧
        isLowerHexStr d = true) ∧
    (∀ (data : List (String × PyVal)) (ex : Option (List String)),
      (compute_hash data ex).length = 66) ∧
    compute_hash [("name", .json (.jstr "A")), ("age", .json (.jint 30))] =
      "0xdff2f857d34c713fa968eb6db18d2ef65bf22448f409fea381e8aa659588ea49" ∧
    compute_hash [("age", .json (.jint 30)), ("name", .json (.jstr "A"))] =
      "0xdff2f857d34c713fa968eb6db18d2ef65bf22448f409fea381e8aa659588ea49" := by
  refine ⟨fun _ _ => rfl, ?_, ?_, by decide, by decide⟩
  · intro data ex
    exact ⟨_, rfl, sha256Hex_length _, bytesToHex_lowerHex _⟩
  · intro data ex
    have h := sha256Hex_length (utf8Encode (serialize_record_data data ex))
    have h2 : "0x".length = 2 := rfl
    simp [compute_hash, String.length_append, h, h2]

/-- C8: the `verify` action reports `verified = true` exactly when the audit
row's `tx_hash` is truthy — also when the chain is unreachable, the receipt
lookup raises, or any other exception occurs — and its result never depends
on the contract's `checkHash` outcome. -/
theorem claim_C8_verify_degrades_to_txhash_presence :
    (∀ (env : W3Env) (audit : OnChainAudit),
      (auditsVerify env audit).verified = pyTruthy audit.tx_hash) ∧
    (∀ (env : W3Env) (v : Except Unit Bool) (audit : OnChainAudit),
      auditsVerify { env with callCheckHash := v } audit = auditsVerify env audit) := by
  constructor
  · intro env audit
    unfold auditsVerify
    split
    · rfl
    · split
      · rfl
      · split
        · split
          · split <;> simp_all
          · simp_all
        · split <;> simp_all
  · intro env v audit
    rfl

/-- C4 counterexample: with a loaded contract and the provider unreachable,
the failure of the bare `checkHash` call propagates out of
`check_hash_on_chain` instead of degrading to `false`. -/
theorem claim_C4_counterexample :
    check_hash_on_chain envCallFail "0x12ab" = .error () := rfl

/-- C4 amended: not-configured states degrade to absent/false/empty without
raising, and the explicitly wrapped paths (the read in `get_record_by_id`,
the receipt wait of `send_record_and_get_id`, the whole test-chain branch of
`send_hash_transaction`) swallow call failures; but the bare contract calls
of `check_hash_on_chain`, `get_owner_address`, `is_authorized_address` and
`has_patient_consent`, and the submission path of `send_record_transaction`,
propagate their failures to the caller. -/
theorem claim_C4_amended_failure_policy :
    (∀ env h, _load_contract env = .ok none → check_hash_on_chain env h = .ok false) ∧
    (∀ env, _load_contract env = .ok none → get_owner_address env = .ok none) ∧
    (∀ env a, _load_contract env = .ok none → is_authorized_address env a = .ok false) ∧
    (∀ env p c, _load_contract env = .ok none → has_patient_consent env p c = .ok false) ∧
    (∀ env i, _load_contract env = .ok none → get_record_by_id env i = .ok "") ∧
    (∀ env h, pyTruthy env.PRIVATE_KEY = false → env.USE_ETH_TESTER = false →
      (send_hash_transaction env h).1 = .ok none) ∧
    (∀ env d, pyTruthy env.PRIVATE_KEY = false → env.USE_ETH_TESTER = false →
      (send_record_transaction env d).1 = .ok none) ∧
    (∀ env d, pyTruthy env.PRIVATE_KEY = false → env.USE_ETH_TESTER = false →
      (send_record_and_get_id env d true 120).1 = .ok (none, none)) ∧
    (∀ env i addr, _load_contract env = .ok (some addr) →
      env.callGetRecord = .error () → get_record_by_id env i = .ok "") ∧
    (∀ env d addr a n g t, env.USE_ETH_TESTER = false →
      pyTruthy env.PRIVATE_KEY = true → _load_contract env = .ok (some addr) →
      env.fromKey = .ok a → env.txCount = .ok n → env.gasPrice = .ok g →
      env.sendRawTx = .ok t → env.waitReceipt = .error () →
      (send_record_and_get_id env d true 120).1 = .ok (some t, none)) ∧
    (∀ env h, env.USE_ETH_TESTER = true → exOk (send_hash_transaction env h).1 = true) ∧
    (∀ env h addr, _load_contract env = .ok (some addr) →
      env.callCheckHash = .error () → check_hash_on_chain env h = .error ()) ∧
    (∀ env addr, _load_contract env = .ok (some addr) →
      env.callOwner = .error () → get_owner_address env = .error ()) ∧
    (∀ env a addr, _load_contract env = .ok (some addr) →
      env.callIsAuthorized = .error () → is_authorized_address env a = .error ()) ∧
    (∀ env p c addr, _load_contract env = .ok (some addr) →
      env.callHasConsent = .error () → has_patient_consent env p c = .error ()) ∧
    (∀ env d addr a n g, env.USE_ETH_TESTER = false →
      pyTruthy env.PRIVATE_KEY = true → _load_contract env = .ok (some addr) →
      env.fromKey = .ok a → env.txCount = .ok n → env.gasPrice = .ok g →
      env.sendRawTx = .error () → (send_record_transaction env d).1 = .error ()) := by
  refine ⟨?_, ?_, ?_, ?_, ?_, ?_, ?_, ?_, ?_, ?_, ?_, ?_, ?_, ?_, ?_, ?_⟩
  · intro env h hl
    simp [check_hash_on_chain, hl]
  · intro env hl
    simp [get_owner_address, hl]
  · intro env a hl
    simp [is_authorized_address, hl]
  · intro env p c hl
    simp [has_patient_consent, hl]
  · intro env i hl
    simp [get_record_by_id, hl]
  · intro env h hk ht
    simp [send_hash_transaction, hk, ht]
  · intro env d hk ht
    simp [send_record_transaction, hk, ht]
  · intro env d hk ht
    simp [send_record_and_get_id, hk, ht]
  · intro env i addr hl hc
    cases hb : to_bytes_hexstr (if pyStartsWith i "0x" then i else "0x" ++ i) <;>
      simp [get_record_by_id, hl, hc, hb, except_bind_ok, except_bind_error]
  · intro env d addr a n g t ht hk hl h1 h2 h3 h4 h5
    simp [send_record_and_get_id, ht, hk, hl, h1, h2, h3, h4, h5,
      except_bind_ok, except_bind_error]
  · intro env h ht
    cases hacct : env.ethTesterAccount with
    | none => simp [send_hash_transaction, ht, hacct, exOk]
    | some acct =>
      cases hgp : env.gasPrice <;> cases htc : env.txCount <;> cases hst : env.sendTx <;>
        simp [send_hash_transaction, ht, hacct, hgp, htc, hst, exOk,
          except_bind_ok, except_bind_error]
  · intro env h addr hl hc
    cases hb : compute_record_hash h <;>
      simp [check_hash_on_chain, hl, hc, hb, except_bind_ok, except_bind_error, unit_eq]
  · intro env addr hl hc
    simp [get_owner_address, hl, hc]
  · intro env a addr hl hc
    cases hb : to_checksum_address a <;>
      simp [is_authorized_address, hl, hc, hb, except_bind_ok, except_bind_error, unit_eq]
  · intro env p c addr hl hc
    cases hb : to_checksum_address p <;>
      simp [has_patient_consent, hl, hc, hb, except_bind_ok, except_bind_error, unit_eq]
  · intro env d addr a n g ht hk hl h1 h2 h3 h4
    simp [send_record_transaction, ht, hk, hl, h1, h2, h3, h4,
      except_bind_ok, except_bind_error]

/-- Witness for the amended C4, instantiating every component at concrete
environments. -/
theorem claim_C4_amended_witness :
    check_hash_on_chain envNoContract "0xab" = .ok false ∧
    get_owner_address envNoContract = .ok none ∧
    is_authorized_address envNoContract "0x1" = .ok false ∧
    has_patient_consent envNoContract "0x1" "surgery" = .ok false ∧
    get_record_by_id envNoContract "0xab" = .ok "" ∧
    (send_hash_transaction envNoCfg "0xab").1 = .ok none ∧
    (send_record_transaction envNoCfg "cid").1 = .ok none ∧
    (send_record_and_get_id envNoCfg "cid" true 120).1 = .ok (none, none) ∧
    get_record_by_id envCallFail "0xab" = .ok "" ∧
    (send_record_and_get_id envWaitFail "cid" true 120).1 = .ok (some "0xrawtx", none) ∧
    exOk (send_hash_transaction envTester "0xab").1 = true ∧
    check_hash_on_chain envCallFail "0xab" = .error () ∧
    get_owner_address envCallFail = .error () ∧
    is_authorized_address envCallFail "0x00112233445566778899aabbccddeeff00112233" = .error () ∧
    has_patient_consent envCallFail "0x00112233445566778899aabbccddeeff00112233" "surgery" = .error () ∧
    (send_record_transaction envCallFail "cid").1 = .error () := by
  obtain ⟨t1, t2, t3, t4, t5, t6, t7, t8, t9, t10, t11, t12, t13, t14, t15, t16⟩ :=
    claim_C4_amended_failure_policy
  exact ⟨t1 envNoContract "0xab" rfl, t2 envNoContract rfl,
    t3 envNoContract "0x1" rfl, t4 envNoContract "0x1" "surgery" rfl,
    t5 envNoContract "0xab" rfl,
    t6 envNoCfg "0xab" rfl rfl, t7 envNoCfg "cid" rfl rfl, t8 envNoCfg "cid" rfl rfl,
    t9 envCallFail "0xab" "0xContractAddr" rfl rfl,
    t10 envWaitFail "cid" "0xContractAddr" "0xSenderAddr" 7 1000000000 "0xrawtx"
      rfl rfl rfl rfl rfl rfl rfl rfl,
    t11 envTester "0xab" rfl,
    t12 envCallFail "0xab" "0xContractAddr" rfl rfl,
    t13 envCallFail "0xContractAddr" rfl rfl,
    t14 envCallFail "0x00112233445566778899aabbccddeeff00112233" "0xContractAddr" rfl rfl,
    t15 envCallFail "0x00112233445566778899aabbccddeeff00112233" "surgery" "0xContractAddr" rfl rfl,
    t16 envCallFail "cid" "0xContractAddr" "0xSenderAddr" 7 1000000000 rfl rfl rfl rfl rfl rfl rfl⟩

/-- C5 counterexample: in test-chain mode `send_hash_transaction` submits
successfully (returning a transaction reference) but the submitted
transaction is an unsigned self-transfer carrying the hash as calldata, not
a signed invocation of the contract storeHash function. -/
theorem claim_C5_counterexample :
    (send_hash_transaction envTester "0x12ab").1 = .ok (some "0xsimtx") ∧
    (send_hash_transaction envTester "0x12ab").2 =
      [⟨.selfTransfer "0xa1" "0x12ab", false⟩] ∧
    ((send_hash_transaction envTester "0x12ab").2.all
      fun t => !t.action.isStoreHash) = true :=
  ⟨rfl, rfl, rfl⟩

/-- C5 amended: `send_hash_transaction` returns `None` whenever neither a
signing key is configured nor test-chain mode is available; on the HTTP path
every submission is a built-and-signed invocation of the contract storeHash
function whose transaction reference is returned without consulting the
receipt wait; in test-chain mode the submission is instead an unsigned
zero-value self-transfer carrying the hash in its data field. -/
theorem claim_C5_amended_send_hash :
    (∀ env h, pyTruthy env.PRIVATE_KEY = false → env.USE_ETH_TESTER = false →
      send_hash_transaction env h = (.ok none, [])) ∧
    (∀ env h addr a n g rb t, env.USE_ETH_TESTER = false →
      pyTruthy env.PRIVATE_KEY = true → _load_contract env = .ok (some addr) →
      env.fromKey = .ok a → env.txCount = .ok n → compute_record_hash h = .ok rb →
      env.gasPrice = .ok g → env.sendRawTx = .ok t →
      send_hash_transaction env h = (.ok (some t), [⟨.callStoreHash rb, true⟩])) ∧
    (∀ env h r, send_hash_transaction { env with waitReceipt := r } h =
      send_hash_transaction env h) ∧
    (∀ env h acct g n t, env.USE_ETH_TESTER = true → env.ethTesterAccount = some acct →
      env.gasPrice = .ok g → env.txCount = .ok n → env.sendTx = .ok t →
      send_hash_transaction env h = (.ok (some t),
        [⟨.selfTransfer acct (if pyStartsWith h "0x" then "0x" ++ h.drop 2 else h),
          false⟩])) := by
  refine ⟨?_, ?_, ?_, ?_⟩
  · intro env h hk ht
    simp [send_hash_transaction, hk, ht]
  · intro env h addr a n g rb t ht hk hl h1 h2 h3 h4 h5
    simp [send_hash_transaction, ht, hk, hl, h1, h2, h3, h4, h5,
      except_bind_ok, except_bind_error]
  · intro env h r
    rfl
  · intro env h acct g n t ht hacct hgp htc hst
    simp [send_hash_transaction, ht, hacct, hgp, htc, hst,
      except_bind_ok, except_bind_error]

/-- Witness for the amended C5 at concrete environments on all four paths. -/
theorem claim_C5_witness :
    send_hash_transaction envNoCfg "0x12ab" = (.ok none, []) ∧
    send_hash_transaction envHttp "0x12ab" =
      (.ok (some "0xrawtx"), [⟨.callStoreHash [18, 171], true⟩]) ∧
    send_hash_transaction envWaitFail "0x12ab" = send_hash_transaction envHttp "0x12ab" ∧
    send_hash_transaction envTester "0x12ab" =
      (.ok (some "0xsimtx"), [⟨.selfTransfer "0xa1" "0x12ab", false⟩]) := by
  obtain ⟨t1, t2, t3, t4⟩ := claim_C5_amended_send_hash
  exact ⟨t1 envNoCfg "0x12ab" rfl rfl,
    t2 envHttp "0x12ab" "0xContractAddr" "0xSenderAddr" 7 1000000000 [18, 171] "0xrawtx"
      rfl rfl rfl rfl rfl rfl rfl rfl,
    t3 envHttp "0x12ab" (.error ()),
    t4 envTester "0x12ab" "0xa1" 1000000000 7 "0xsimtx" rfl rfl rfl rfl rfl⟩

/-- C6: the second component of `send_record_and_get_id` is always `None`:
the module ABI declares no `RecordStored` event, so the event lookup raises
inside the swallowed `try` and the record id is never extracted — even when
the mined receipt contains a `RecordStored` log, as `envEvent` shows. -/
theorem claim_C6_record_id_never_extracted :
    (∀ (env : W3Env) (d : String) (w : Bool) (t : Nat),
      okSnd (send_record_and_get_id env d w t).1 = none) ∧
    (send_record_and_get_id envEvent "cid" true 120).1 = .ok (some "0xrawtx", none) ∧
    envEvent.waitReceipt = .ok ⟨[[1, 2]]⟩ := by
  refine ⟨?_, rfl, rfl⟩
  intro env d w t
  unfold send_record_and_get_id
  split
  · rfl
  · split
    · rfl
    · rfl
    · split
      · rfl
      · split
        · rfl
        · split
          · rfl
          · split
            · rfl
            · rfl

end DHC
